import Mathlib

/-!
Shallow embedding of the region-extraction core of `wsi_handler.py`
(class `WSIHandler`), together with proofs of the specified properties.

Modelling conventions:
* Python floats (downsample factors, scale ratios) are modelled as exact
  rationals `ℚ`; `int(...)` truncation of a non-negative value is
  `(⌊·⌋ : ℚ → ℤ).toNat`.
* An `openslide.OpenSlide` handle is modelled by the `Slide` structure
  carrying the per-level downsample table used by `get_region`.
* The external collaborators (filesystem lookup, `openslide.OpenSlide`
  construction, `read_region` pixel decoding, `Image.resize`, PNG
  encoding) are parameters of the embedded functions: the code under
  verification only composes them.
* PIL images are modelled by the `Block` type, tagged `rgb`/`rgba`
  exactly as the code branches on `region.mode == 'RGBA'`.
-/

namespace WSIClip

/-- A pixel block as handed around by `get_region`: either mode `RGB`
(no alpha channel) or mode `RGBA` (with an alpha channel), with its
size and a row-major pixel list. Models the PIL `Image` objects. -/
inductive Block where
  | rgb (width height : ℕ) (pixels : List (ℕ × ℕ × ℕ))
  | rgba (width height : ℕ) (pixels : List (ℕ × ℕ × ℕ × ℕ))
deriving DecidableEq

/-- Width of a block. -/
def Block.width : Block → ℕ
  | .rgb w _ _ => w
  | .rgba w _ _ => w

/-- Height of a block. -/
def Block.height : Block → ℕ
  | .rgb _ h _ => h
  | .rgba _ h _ => h

/-- Whether the block carries an alpha channel (`region.mode == 'RGBA'`). -/
def Block.hasAlpha : Block → Bool
  | .rgb _ _ _ => false
  | .rgba _ _ _ => true

/-- Per-channel "over" compositing of a color value `c` with alpha `a`
over an opaque white (255) background, as performed by
`background.paste(region, mask=region.split()[3])` on 8-bit channels:
the alpha channel is the per-pixel blend weight. -/
def blendOverWhite (c a : ℕ) : ℕ :=
  (c * a + 255 * (255 - a)) / 255

/-- Lines 169-173 of `wsi_handler.py`: if the block is `RGBA`, paste it
over an opaque white canvas of the same size using its alpha channel as
the mask, producing an `RGB` block; otherwise pass it through. -/
def flatten : Block → Block
  | .rgb w h p => .rgb w h p
  | .rgba w h p =>
      .rgb w h (p.map fun q =>
        (blendOverWhite q.1 q.2.2.2,
         blendOverWhite q.2.1 q.2.2.2,
         blendOverWhite q.2.2.1 q.2.2.2))

/-- The slide handle: the part of an `openslide.OpenSlide` object that
`get_region` reads, namely `slide.level_downsamples`. -/
structure Slide where
  level_downsamples : List ℚ
deriving DecidableEq

/-- The handle cache `self._slide_cache : Dict[str, OpenSlide]`. -/
structure Registry where
  cache : List (String × Slide)
deriving DecidableEq

/-- Dictionary lookup `self._slide_cache[filename]` / the
`filename not in self._slide_cache` test. -/
def cacheLookup (cache : List (String × Slide)) (filename : String) : Option Slide :=
  match cache with
  | [] => none
  | (k, v) :: rest => if k = filename then some v else cacheLookup rest filename

/-- `WSIHandler._get_slide` (lines 48-64): return the cached handle if
present; otherwise check the backing file exists (raising
`FileNotFoundError` if not), open it, cache it and return it. The
filesystem test and `openslide.OpenSlide` constructor are parameters. -/
def getSlide (fsExists : String → Bool) (openSlide : String → Slide)
    (reg : Registry) (filename : String) : Except String Slide × Registry :=
  match cacheLookup reg.cache filename with
  | some s => (Except.ok s, reg)
  | none =>
      if fsExists filename then
        (Except.ok (openSlide filename), ⟨(filename, openSlide filename) :: reg.cache⟩)
      else
        (Except.error ("file not found: " ++ filename), reg)

/-- Body of `WSIHandler._calculate_best_level` (lines 116-132): computes
`required_downsample = max(region_width, region_height) / self.max_pixels`
and returns it. Note: despite its docstring and `Tuple[int, float]`
annotation, the function returns only this scalar. -/
def calcRequiredDownsample (region_width region_height max_pixels : ℕ) : ℚ :=
  ((max region_width region_height : ℕ) : ℚ) / (max_pixels : ℚ)

/-- The level-scan loop of `get_region` (lines 154-159):
`for i, downsample in enumerate(...): if downsample <= required: best = i
else: break`, with current index `i` and current `best_level`. -/
def bestLevelLoop (required : ℚ) : List ℚ → ℕ → ℕ → ℕ
  | [], _, best => best
  | d :: ds, i, best => if d ≤ required then bestLevelLoop required ds (i + 1) i else best

/-- `best_level` as computed by `get_region`: the loop started with
`best_level = 0` at index 0. -/
def bestLevel (downsamples : List ℚ) (required : ℚ) : ℕ :=
  bestLevelLoop required downsamples 0 0

/-- Lines 163-164 of `wsi_handler.py`: the level-local read size
`(int(width / level_downsample), int(height / level_downsample))`. -/
def readSize (width height : ℕ) (level_downsample : ℚ) : ℕ × ℕ :=
  ((⌊(width : ℚ) / level_downsample⌋).toNat, (⌊(height : ℚ) / level_downsample⌋).toNat)

/-- The arguments `get_region` passes to `slide.read_region` (line 167):
the unchanged full-resolution origin `(x, y)`, the selected level, and
the level-local read size. -/
def readCallArgs (slide : Slide) (max_pixels : ℕ) (x y : ℤ) (width height : ℕ) :
    (ℤ × ℤ) × ℕ × (ℕ × ℕ) :=
  let required_downsample := calcRequiredDownsample width height max_pixels
  let best_level := bestLevel slide.level_downsamples required_downsample
  ((x, y), best_level,
    readSize width height (slide.level_downsamples.getD best_level 1))

/-- Lines 176-183 of `wsi_handler.py`: the output size after the
conditional resize. If `max(read_width, read_height) > max_pixels`,
scale both sides by `scale = max_pixels / max(read_width, read_height)`
and truncate; otherwise keep the read size. -/
def resizeOutput (read_width read_height max_pixels : ℕ) : ℕ × ℕ :=
  if max_pixels < max read_width read_height then
    ((⌊(read_width : ℚ) * ((max_pixels : ℚ) / ((max read_width read_height : ℕ) : ℚ))⌋).toNat,
     (⌊(read_height : ℚ) * ((max_pixels : ℚ) / ((max read_width read_height : ℕ) : ℚ))⌋).toNat)
  else
    (read_width, read_height)

/-- Specification helper: the number of leading levels of the table whose
downsample is within `required` (the length of the qualifying prefix
scanned by the loop before its `break`). -/
def qualCount (required : ℚ) : List ℚ → ℕ
  | [] => 0
  | d :: ds => if d ≤ required then qualCount required ds + 1 else 0

/-- The metadata dictionary returned by `get_region` (lines 190-195). -/
structure RegionMeta where
  level_used : ℕ
  level_downsample : ℚ
  output_size : ℕ × ℕ
  original_region : ℤ × ℤ × ℕ × ℕ
deriving DecidableEq

/-- Lines 150-197 of `wsi_handler.py`: the pure part of `get_region`
after the slide handle is obtained -- level selection, read, alpha
flattening, conditional resize, encoding, and metadata assembly. -/
def regionPipeline (readRegion : Slide → (ℤ × ℤ) → ℕ → (ℕ × ℕ) → Block)
    (resizeImage : Block → (ℕ × ℕ) → Block) (encodePNG : Block → List ℕ)
    (max_pixels : ℕ) (slide : Slide) (x y : ℤ) (width height : ℕ) :
    List ℕ × RegionMeta :=
  let required_downsample := calcRequiredDownsample width height max_pixels
  let best_level := bestLevel slide.level_downsamples required_downsample
  let level_downsample := slide.level_downsamples.getD best_level 1
  let read_size := readSize width height level_downsample
  let region0 := readRegion slide (x, y) best_level read_size
  let region1 := flatten region0
  let output_size := resizeOutput read_size.1 read_size.2 max_pixels
  let region2 :=
    if max_pixels < max read_size.1 read_size.2 then resizeImage region1 output_size
    else region1
  (encodePNG region2,
    { level_used := best_level
      level_downsample := level_downsample
      output_size := output_size
      original_region := (x, y, width, height) })

/-- `WSIHandler.get_region` (lines 134-197): select the level, read the
block, flatten alpha, resize to the pixel budget, encode, and return the
encoded bytes plus metadata. External collaborators (`read_region` pixel
decoding, `Image.resize`, PNG serialization) are parameters; the
possibly-updated handle cache is threaded through explicitly. -/
def getRegion (fsExists : String → Bool) (openSlide : String → Slide)
    (readRegion : Slide → (ℤ × ℤ) → ℕ → (ℕ × ℕ) → Block)
    (resizeImage : Block → (ℕ × ℕ) → Block)
    (encodePNG : Block → List ℕ)
    (max_pixels : ℕ) (reg : Registry) (filename : String)
    (x y : ℤ) (width height : ℕ) :
    Except String (List ℕ × RegionMeta) × Registry :=
  match getSlide fsExists openSlide reg filename with
  | (Except.error e, reg') => (Except.error e, reg')
  | (Except.ok slide, reg') =>
      (Except.ok (regionPipeline readRegion resizeImage encodePNG max_pixels
        slide x y width height), reg')

/-! ## Lemmas about the level-selection loop -/

lemma bestLevelLoop_eq (required : ℚ) :
    ∀ (ds : List ℚ) (i best : ℕ),
      bestLevelLoop required ds i best =
        if qualCount required ds = 0 then best else i + qualCount required ds - 1 := by
  intro ds
  induction ds with
  | nil => intro i best; simp [bestLevelLoop, qualCount]
  | cons d ds ih =>
      intro i best
      by_cases hd : d ≤ required
      · rw [bestLevelLoop, if_pos hd, ih, qualCount, if_pos hd,
          if_neg (by omega : ¬ qualCount required ds + 1 = 0)]
        by_cases hq : qualCount required ds = 0
        · rw [if_pos hq]; omega
        · rw [if_neg hq]; omega
      · rw [bestLevelLoop, if_neg hd, qualCount, if_neg hd]
        simp

lemma bestLevel_eq (downsamples : List ℚ) (required : ℚ) :
    bestLevel downsamples required =
      if qualCount required downsamples = 0 then 0 else qualCount required downsamples - 1 := by
  rw [bestLevel, bestLevelLoop_eq]
  simp

lemma qualCount_le_length (required : ℚ) :
    ∀ ds : List ℚ, qualCount required ds ≤ ds.length := by
  intro ds
  induction ds with
  | nil => simp [qualCount]
  | cons d ds ih =>
      rw [qualCount]
      by_cases hd : d ≤ required
      · simp only [if_pos hd, List.length_cons]; omega
      · simp [if_neg hd]

lemma getD_le_of_lt_qualCount (required : ℚ) :
    ∀ (ds : List ℚ) (j : ℕ), j < qualCount required ds → ds.getD j 0 ≤ required := by
  intro ds
  induction ds with
  | nil => simp [qualCount]
  | cons d ds ih =>
      intro j hj
      rw [qualCount] at hj
      by_cases hd : d ≤ required
      · rw [if_pos hd] at hj
        cases j with
        | zero => simpa using hd
        | succ j => exact ih j (by omega)
      · rw [if_neg hd] at hj; omega

lemma lt_qualCount_of_getD_le (required : ℚ) :
    ∀ ds : List ℚ, ds.Chain' (· ≤ ·) →
      ∀ j, j < ds.length → ds.getD j 0 ≤ required → j < qualCount required ds := by
  intro ds
  induction ds with
  | nil => simp
  | cons d ds ih =>
      intro hchain j hj hle
      rw [qualCount]
      by_cases hd : d ≤ required
      · rw [if_pos hd]
        cases j with
        | zero => omega
        | succ j =>
            have := ih hchain.tail j (by simpa using hj) (by simpa using hle)
            omega
      · rw [if_neg hd]
        exfalso
        cases j with
        | zero => exact hd (by simpa using hle)
        | succ j =>
            have hpair : List.Pairwise (· ≤ ·) (d :: ds) :=
              (List.chain'_iff_pairwise).mp hchain
            have hmem : ds.getD j 0 ∈ ds := by
              have hjl : j < ds.length := by simpa using hj
              rw [List.getD_eq_getElem ds 0 hjl]
              exact List.getElem_mem hjl
            have : d ≤ ds.getD j 0 := (List.pairwise_cons.mp hpair).1 _ hmem
            exact hd (le_trans this (by simpa using hle))

lemma bestLevel_lt_length (downsamples : List ℚ) (required : ℚ)
    (hne : downsamples ≠ []) : bestLevel downsamples required < downsamples.length := by
  rw [bestLevel_eq]
  have hlen : 0 < downsamples.length := List.length_pos.mpr hne
  by_cases hq : qualCount required downsamples = 0
  · simpa [hq]
  · have := qualCount_le_length required downsamples
    simp only [if_neg hq]
    omega

/-! ## C1: level selection picks the highest qualifying level -/

/-- C1: for every positive width, height and maxPixels, and every
monotonically non-decreasing downsample table starting at 1.0, the level
chosen by `get_region`'s scan is in range and is the highest index whose
downsample is at most `max(width, height) / maxPixels`; when no level's
downsample is within that ratio, the chosen level is 0. -/
theorem get_region_selects_highest_qualifying_level
    (downsamples : List ℚ) (width height max_pixels : ℕ) (required : ℚ)
    (hw : 0 < width) (hh : 0 < height) (hm : 0 < max_pixels)
    (hne : downsamples ≠ []) (h1 : downsamples.headI = 1)
    (hmono : downsamples.Chain' (· ≤ ·))
    (hreq : required = calcRequiredDownsample width height max_pixels) :
    bestLevel downsamples required < downsamples.length ∧
    ((∃ j, j < downsamples.length ∧ downsamples.getD j 0 ≤ required) →
      downsamples.getD (bestLevel downsamples required) 0 ≤ required ∧
      ∀ j, j < downsamples.length → downsamples.getD j 0 ≤ required →
        j ≤ bestLevel downsamples required) ∧
    ((∀ j, j < downsamples.length → ¬ downsamples.getD j 0 ≤ required) →
      bestLevel downsamples required = 0) := by
  refine ⟨bestLevel_lt_length _ _ hne, ?_, ?_⟩
  · rintro ⟨j, hj, hle⟩
    have hq : j < qualCount required downsamples :=
      lt_qualCount_of_getD_le _ _ hmono j hj hle
    have hb : bestLevel downsamples required = qualCount required downsamples - 1 := by
      rw [bestLevel_eq, if_neg (by omega)]
    constructor
    · rw [hb]; exact getD_le_of_lt_qualCount _ _ _ (by omega)
    · intro k hk hkle
      have := lt_qualCount_of_getD_le _ _ hmono k hk hkle
      rw [hb]; omega
  · intro hnone
    rw [bestLevel_eq]
    by_cases hq : qualCount required downsamples = 0
    · simp [hq]
    · exfalso
      have h0 : 0 < qualCount required downsamples := by omega
      have hlen := qualCount_le_length required downsamples
      exact hnone 0 (by omega) (getD_le_of_lt_qualCount _ _ 0 h0)

/-- Witness for C1: the downsample table `[1, 4, 16]` with the request
`width = height = 2048`, `maxPixels = 512` (so the required downsample
is 4): the chosen level is in range, qualifies, and is maximal. -/
theorem get_region_selects_highest_qualifying_level_witness :
    bestLevel [1, 4, 16] 4 < ([1, 4, 16] : List ℚ).length ∧
    ((∃ j, j < ([1, 4, 16] : List ℚ).length ∧ ([1, 4, 16] : List ℚ).getD j 0 ≤ 4) →
      ([1, 4, 16] : List ℚ).getD (bestLevel [1, 4, 16] 4) 0 ≤ 4 ∧
      ∀ j, j < ([1, 4, 16] : List ℚ).length → ([1, 4, 16] : List ℚ).getD j 0 ≤ 4 →
        j ≤ bestLevel [1, 4, 16] 4) ∧
    ((∀ j, j < ([1, 4, 16] : List ℚ).length → ¬ ([1, 4, 16] : List ℚ).getD j 0 ≤ 4) →
      bestLevel [1, 4, 16] 4 = 0) :=
  get_region_selects_highest_qualifying_level [1, 4, 16] 2048 2048 512 4
    (by norm_num) (by norm_num) (by norm_num) (by simp) rfl
    (by simp [List.chain'_cons]; norm_num) (by norm_num [calcRequiredDownsample])

/-! ## C2: the output size respects the pixel budget -/

lemma toNat_floor_mul_scale_le (a m mp : ℕ) (ha : a ≤ m) (hm : 0 < m) :
    (⌊(a : ℚ) * ((mp : ℚ) / (m : ℚ))⌋).toNat ≤ mp := by
  have hmq : (0 : ℚ) < (m : ℚ) := by exact_mod_cast hm
  have h1 : (a : ℚ) * ((mp : ℚ) / (m : ℚ)) ≤ (mp : ℚ) := by
    have haq : (a : ℚ) ≤ (m : ℚ) := by exact_mod_cast ha
    have hscale : (0 : ℚ) ≤ (mp : ℚ) / (m : ℚ) := by positivity
    calc (a : ℚ) * ((mp : ℚ) / (m : ℚ))
        ≤ (m : ℚ) * ((mp : ℚ) / (m : ℚ)) := mul_le_mul_of_nonneg_right haq hscale
      _ = (mp : ℚ) := by field_simp
  have h2 : ⌊(a : ℚ) * ((mp : ℚ) / (m : ℚ))⌋ ≤ (mp : ℤ) := by
    calc ⌊(a : ℚ) * ((mp : ℚ) / (m : ℚ))⌋ ≤ ⌊(mp : ℚ)⌋ := Int.floor_le_floor h1
      _ = (mp : ℤ) := Int.floor_natCast mp
  exact Int.toNat_le.mpr h2

lemma resizeOutput_le (rwidth rheight mp : ℕ) :
    max (resizeOutput rwidth rheight mp).1 (resizeOutput rwidth rheight mp).2 ≤ mp := by
  unfold resizeOutput
  by_cases hc : mp < max rwidth rheight
  · rw [if_pos hc]
    have hm : 0 < max rwidth rheight := by omega
    dsimp only
    exact max_le (toNat_floor_mul_scale_le rwidth _ mp (le_max_left _ _) hm)
      (toNat_floor_mul_scale_le rheight _ mp (le_max_right _ _) hm)
  · rw [if_neg hc]
    exact le_of_not_lt hc

lemma resizeOutput_of_le (rwidth rheight mp : ℕ) (h : max rwidth rheight ≤ mp) :
    resizeOutput rwidth rheight mp = (rwidth, rheight) := by
  unfold resizeOutput
  rw [if_neg (by omega)]

/-- C2: for every successful `get_region` call, the longest side of the
reported `output_size` is at most `max_pixels`; and when no resize was
needed (the level-local read size already fits the budget) the reported
`output_size` equals the read size exactly. -/
theorem get_region_output_within_budget
    (fsExists : String → Bool) (openSlide : String → Slide)
    (readRegion : Slide → (ℤ × ℤ) → ℕ → (ℕ × ℕ) → Block)
    (resizeImage : Block → (ℕ × ℕ) → Block) (encodePNG : Block → List ℕ)
    (max_pixels : ℕ) (reg : Registry) (filename : String) (x y : ℤ)
    (width height : ℕ) (bytes : List ℕ) (meta : RegionMeta) (slide : Slide)
    (hs : (getSlide fsExists openSlide reg filename).1 = Except.ok slide)
    (hok : (getRegion fsExists openSlide readRegion resizeImage encodePNG
        max_pixels reg filename x y width height).1 = Except.ok (bytes, meta)) :
    max meta.output_size.1 meta.output_size.2 ≤ max_pixels ∧
    (max ((readCallArgs slide max_pixels x y width height).2.2).1
        ((readCallArgs slide max_pixels x y width height).2.2).2 ≤ max_pixels →
      meta.output_size = (readCallArgs slide max_pixels x y width height).2.2) := by
  have hmeta : meta.output_size =
      resizeOutput ((readCallArgs slide max_pixels x y width height).2.2).1
        ((readCallArgs slide max_pixels x y width height).2.2).2 max_pixels := by
    rcases hget : getSlide fsExists openSlide reg filename with ⟨res, reg'⟩
    rw [hget] at hs
    cases res with
    | error e => simp at hs
    | ok s =>
        simp only at hs
        injection hs with hs
        subst hs
        unfold getRegion regionPipeline at hok
        rw [hget] at hok
        simp only [readCallArgs] at hok ⊢
        injection hok with hok
        injection hok with hbytes hmeta
        rw [← hmeta]
  refine ⟨hmeta ▸ resizeOutput_le _ _ _, fun hfit => ?_⟩
  rw [hmeta, resizeOutput_of_le _ _ _ hfit]

/-- Witness for C2: a concrete slide with level table `[1]`, budget 4 and
a 3x3 request: the output is within budget and, since no resize was
needed, equals the read size. -/
theorem get_region_output_within_budget_witness :
    max ((⟨0, 1, (3, 3), (0, 0, 3, 3)⟩ : RegionMeta).output_size).1
      ((⟨0, 1, (3, 3), (0, 0, 3, 3)⟩ : RegionMeta).output_size).2 ≤ 4 ∧
    (max ((readCallArgs ⟨[1]⟩ 4 0 0 3 3).2.2).1
        ((readCallArgs ⟨[1]⟩ 4 0 0 3 3).2.2).2 ≤ 4 →
      (⟨0, 1, (3, 3), (0, 0, 3, 3)⟩ : RegionMeta).output_size =
        (readCallArgs ⟨[1]⟩ 4 0 0 3 3).2.2) :=
  get_region_output_within_budget (fun _ => true) (fun _ => ⟨[1]⟩)
    (fun _ _ _ sz => Block.rgb sz.1 sz.2 []) (fun b _ => b) (fun _ => [])
    4 ⟨[]⟩ "a" 0 0 3 3 [] ⟨0, 1, (3, 3), (0, 0, 3, 3)⟩ ⟨[1]⟩
    rfl
    (by norm_num [getRegion, regionPipeline, getSlide, cacheLookup,
      calcRequiredDownsample, bestLevel, bestLevelLoop, readSize,
      resizeOutput] <;> decide)

/-! ## C3: Scenario C -/

/-- C3: with level table `[1, 4, 16]`, budget 512 and a 3000x3000
request, `get_region` selects level 1 (downsample 4), reads 750x750,
takes the resize branch with scale `512/750`, and reports
`output_size = (512, 512)` in its metadata. -/
theorem scenario_c_selects_level1_resizes_to_512 :
    (getRegion (fun _ => true) (fun _ => ⟨[1, 4, 16]⟩)
        (fun _ _ _ sz => Block.rgb sz.1 sz.2 []) (fun _ sz => Block.rgb sz.1 sz.2 [])
        (fun _ => []) 512 ⟨[]⟩ "slide" 0 0 3000 3000).1 =
      Except.ok ([], ⟨1, 4, (512, 512), (0, 0, 3000, 3000)⟩) ∧
    readSize 3000 3000 4 = (750, 750) ∧
    512 < max (readSize 3000 3000 4).1 (readSize 3000 3000 4).2 ∧
    (512 : ℚ) / ((max (readSize 3000 3000 4).1 (readSize 3000 3000 4).2 : ℕ) : ℚ) =
      512 / 750 := by
  refine ⟨?_, ?_, ?_, ?_⟩ <;>
    norm_num [getRegion, regionPipeline, getSlide, cacheLookup,
      calcRequiredDownsample, bestLevel, bestLevelLoop, readSize,
      resizeOutput, show Int.toNat 750 = 750 from rfl,
      show Int.toNat 512 = 512 from rfl] <;> decide

/-! ## C4: what `_calculate_best_level` actually returns -/

/-- C4 (code evaluation): at the claimed inputs
`region_width = region_height = 3000`, `max_pixels = 512`, the body of
`_calculate_best_level` evaluates to the scalar required-downsample
ratio `3000 / 512 = 375/64`; the function returns this single float,
not the `(level, downsample)` pair promised by its docstring and
`Tuple[int, float]` annotation. -/
theorem calculate_best_level_returns_scalar_ratio :
    calcRequiredDownsample 3000 3000 512 = 375 / 64 := by
  norm_num [calcRequiredDownsample]

/-! ## C5: alpha flattening -/

/-- C5: the block handed onward after the compositing step never has an
alpha channel; flattening preserves the dimensions; a block without an
alpha channel passes through unchanged; and the white-background blend
keeps a fully opaque pixel's color and maps a fully transparent pixel
to white. -/
theorem flatten_output_never_has_alpha (blk : Block) :
    (flatten blk).hasAlpha = false ∧
    (flatten blk).width = blk.width ∧
    (flatten blk).height = blk.height ∧
    (blk.hasAlpha = false → flatten blk = blk) ∧
    (∀ c, blendOverWhite c 255 = c) ∧
    (∀ c, blendOverWhite c 0 = 255) := by
  refine ⟨?_, ?_, ?_, ?_, ?_, ?_⟩
  · cases blk <;> rfl
  · cases blk <;> rfl
  · cases blk <;> rfl
  · cases blk with
    | rgb w h p => intro _; rfl
    | rgba w h p => intro hno; simp [Block.hasAlpha] at hno
  · intro c
    simp [blendOverWhite, Nat.mul_div_cancel]
  · intro c
    simp [blendOverWhite]

/-- Witness for C5: a concrete RGB block is passed through unchanged and
carries no alpha after the compositing step. -/
theorem flatten_output_never_has_alpha_witness :
    (flatten (Block.rgb 1 1 [(10, 20, 30)])).hasAlpha = false ∧
    flatten (Block.rgb 1 1 [(10, 20, 30)]) = Block.rgb 1 1 [(10, 20, 30)] :=
  ⟨(flatten_output_never_has_alpha (Block.rgb 1 1 [(10, 20, 30)])).1,
   (flatten_output_never_has_alpha (Block.rgb 1 1 [(10, 20, 30)])).2.2.2.1 rfl⟩

/-! ## C6: missing backing file -/

lemma cacheLookup_eq_none (fsExists : String → Bool)
    (cache : List (String × Slide)) (filename : String)
    (hinv : ∀ p ∈ cache, fsExists p.1 = true) (hfs : fsExists filename = false) :
    cacheLookup cache filename = none := by
  induction cache with
  | nil => rfl
  | cons p rest ih =>
      obtain ⟨k, v⟩ := p
      rw [cacheLookup]
      by_cases hk : k = filename
      · exfalso
        have := hinv (k, v) (List.mem_cons_self _ _)
        rw [hk] at this
        rw [this] at hfs
        exact Bool.noConfusion hfs
      · rw [if_neg hk]
        exact ih fun q hq => hinv q (List.mem_cons_of_mem _ hq)

/-- C6: opening a source name with no backing file on disk fails with the
not-found error and leaves the handle cache unchanged. The hypothesis
`hinv` states the cache invariant that every cached name had a backing
file when it was opened (which a missing file therefore cannot satisfy). -/
theorem get_slide_missing_file_errors (fsExists : String → Bool)
    (openSlide : String → Slide) (reg : Registry) (filename : String)
    (hinv : ∀ p ∈ reg.cache, fsExists p.1 = true)
    (hfs : fsExists filename = false) :
    getSlide fsExists openSlide reg filename =
      (Except.error ("file not found: " ++ filename), reg) := by
  unfold getSlide
  rw [cacheLookup_eq_none fsExists reg.cache filename hinv hfs]
  simp [hfs]

/-- Witness for C6: with an empty cache and a filesystem on which no file
exists, opening `"missing"` errors and the cache stays empty. -/
theorem get_slide_missing_file_errors_witness :
    getSlide (fun _ => false) (fun _ => ⟨[1]⟩) ⟨[]⟩ "missing" =
      (Except.error ("file not found: " ++ "missing"), ⟨[]⟩) :=
  get_slide_missing_file_errors (fun _ => false) (fun _ => ⟨[1]⟩) ⟨[]⟩ "missing"
    (by simp) rfl

/-! ## C7: arguments of the read_region call -/

lemma getD_eq_get (l : List ℚ) (d : ℚ) (n : ℕ) (h : n < l.length) :
    l.getD n d = l.get ⟨n, h⟩ := by
  rw [List.getD_eq_getElem l d h, List.get_eq_getElem]

/-- C7: for the chosen level, the level-local read dimensions passed to
`slide.read_region` are `floor(width / d)` and `floor(height / d)` for
that level's downsample `d`, and the top-left origin `(x, y)` is passed
through unchanged in full-resolution coordinates. -/
theorem read_call_origin_unchanged_and_floor_size
    (slide : Slide) (max_pixels : ℕ) (x y : ℤ) (width height : ℕ)
    (hne : slide.level_downsamples ≠ []) :
    ∃ hb : bestLevel slide.level_downsamples
        (calcRequiredDownsample width height max_pixels) <
          slide.level_downsamples.length,
      readCallArgs slide max_pixels x y width height =
        ((x, y),
         bestLevel slide.level_downsamples
           (calcRequiredDownsample width height max_pixels),
         ((⌊(width : ℚ) / slide.level_downsamples.get
              ⟨bestLevel slide.level_downsamples
                (calcRequiredDownsample width height max_pixels), hb⟩⌋).toNat,
          (⌊(height : ℚ) / slide.level_downsamples.get
              ⟨bestLevel slide.level_downsamples
                (calcRequiredDownsample width height max_pixels), hb⟩⌋).toNat)) := by
  refine ⟨bestLevel_lt_length _ _ hne, ?_⟩
  simp only [readCallArgs, readSize]
  rw [getD_eq_get _ 1 _ (bestLevel_lt_length _ _ hne)]

/-- Witness for C7: slide with level table `[1, 4]`, budget 512, origin
`(5, 7)` and a 100x100 request. -/
theorem read_call_origin_unchanged_and_floor_size_witness :
    ∃ hb : bestLevel (Slide.mk [1, 4]).level_downsamples
        (calcRequiredDownsample 100 100 512) <
          (Slide.mk [1, 4]).level_downsamples.length,
      readCallArgs (Slide.mk [1, 4]) 512 5 7 100 100 =
        ((5, 7),
         bestLevel (Slide.mk [1, 4]).level_downsamples
           (calcRequiredDownsample 100 100 512),
         ((⌊(100 : ℚ) / (Slide.mk [1, 4]).level_downsamples.get
              ⟨bestLevel (Slide.mk [1, 4]).level_downsamples
                (calcRequiredDownsample 100 100 512), hb⟩⌋).toNat,
          (⌊(100 : ℚ) / (Slide.mk [1, 4]).level_downsamples.get
              ⟨bestLevel (Slide.mk [1, 4]).level_downsamples
                (calcRequiredDownsample 100 100 512), hb⟩⌋).toNat)) :=
  read_call_origin_unchanged_and_floor_size (Slide.mk [1, 4]) 512 5 7 100 100
    (by simp)

/-! ## C8: handle caching -/

lemma getSlide_ok_lookup (fsExists : String → Bool) (openSlide : String → Slide)
    (reg : Registry) (filename : String) (s : Slide) (reg' : Registry)
    (h : getSlide fsExists openSlide reg filename = (Except.ok s, reg')) :
    cacheLookup reg'.cache filename = some s := by
  unfold getSlide at h
  cases hl : cacheLookup reg.cache filename with
  | some t =>
      rw [hl] at h
      injection h with h1 h2
      injection h1 with h1
      rw [← h2, ← h1]
      exact hl
  | none =>
      rw [hl] at h
      cases hfs : fsExists filename with
      | true =>
          simp only [hfs, if_true] at h
          injection h with h1 h2
          injection h1 with h1
          rw [← h2]
          rw [cacheLookup, if_pos rfl, h1]
      | false =>
          simp [hfs] at h

/-- C8: once a first `_get_slide` call for a name succeeded, every
subsequent call with the same name returns the same cached handle and
leaves the cache unchanged, regardless of the filesystem state or of
what opening would now produce (hence no re-open and no re-read of
metadata occurs). -/
theorem get_slide_second_call_returns_cached
    (fsExists : String → Bool) (openSlide : String → Slide)
    (reg : Registry) (filename : String) (s : Slide) (reg' : Registry)
    (h : getSlide fsExists openSlide reg filename = (Except.ok s, reg')) :
    ∀ (fsExists2 : String → Bool) (openSlide2 : String → Slide),
      getSlide fsExists2 openSlide2 reg' filename = (Except.ok s, reg') := by
  intro fsExists2 openSlide2
  unfold getSlide
  rw [getSlide_ok_lookup fsExists openSlide reg filename s reg' h]

/-- Witness for C8: after `"a"` was opened once (filesystem present),
a second call — even with a filesystem on which nothing exists and an
opener that would produce a different handle — returns the cached
handle and the unchanged cache. -/
theorem get_slide_second_call_returns_cached_witness :
    getSlide (fun _ => false) (fun _ => ⟨[2]⟩) ⟨[("a", ⟨[1]⟩)]⟩ "a" =
      (Except.ok ⟨[1]⟩, ⟨[("a", ⟨[1]⟩)]⟩) :=
  get_slide_second_call_returns_cached (fun _ => true) (fun _ => ⟨[1]⟩)
    ⟨[]⟩ "a" ⟨[1]⟩ ⟨[("a", ⟨[1]⟩)]⟩ rfl (fun _ => false) (fun _ => ⟨[2]⟩)

/-! ## C9: determinism / idempotence of get_region -/

lemma getSlide_error_reg (fsExists : String → Bool) (openSlide : String → Slide)
    (reg : Registry) (filename : String) (e : String) (reg' : Registry)
    (h : getSlide fsExists openSlide reg filename = (Except.error e, reg')) :
    reg' = reg := by
  unfold getSlide at h
  cases hl : cacheLookup reg.cache filename with
  | some t =>
      rw [hl] at h
      injection h with h1 h2
      exact Except.noConfusion h1
  | none =>
      rw [hl] at h
      cases hfs : fsExists filename with
      | true =>
          simp [hfs] at h
      | false =>
          simp only [hfs, Bool.false_eq_true, if_false, Prod.mk.injEq] at h
          exact h.2.symm

/-- C9: with a fixed source (fixed filesystem, opener, pixel decoder,
resizer and encoder), calling `get_region` a second time with identical
inputs, on the cache state left by the first call, returns exactly the
same `(bytes, metadata)` result and leaves the cache unchanged. -/
theorem get_region_idempotent (fsExists : String → Bool) (openSlide : String → Slide)
    (readRegion : Slide → (ℤ × ℤ) → ℕ → (ℕ × ℕ) → Block)
    (resizeImage : Block → (ℕ × ℕ) → Block) (encodePNG : Block → List ℕ)
    (max_pixels : ℕ) (reg : Registry) (filename : String) (x y : ℤ)
    (width height : ℕ) :
    getRegion fsExists openSlide readRegion resizeImage encodePNG max_pixels
        (getRegion fsExists openSlide readRegion resizeImage encodePNG max_pixels
          reg filename x y width height).2 filename x y width height =
      getRegion fsExists openSlide readRegion resizeImage encodePNG max_pixels
        reg filename x y width height := by
  rcases hget : getSlide fsExists openSlide reg filename with ⟨res, reg'⟩
  cases res with
  | error e =>
      have hreg : reg' = reg := getSlide_error_reg _ _ _ _ _ _ hget
      rw [hreg] at hget
      have h1 : getRegion fsExists openSlide readRegion resizeImage encodePNG
          max_pixels reg filename x y width height = (Except.error e, reg) := by
        unfold getRegion
        rw [hget]
      rw [h1]
      exact h1
  | ok s =>
      have h2 : getSlide fsExists openSlide reg' filename = (Except.ok s, reg') := by
        unfold getSlide
        rw [getSlide_ok_lookup _ _ _ _ _ _ hget]
      have h1 : getRegion fsExists openSlide readRegion resizeImage encodePNG
          max_pixels reg filename x y width height =
          (Except.ok (regionPipeline readRegion resizeImage encodePNG max_pixels
            s x y width height), reg') := by
        unfold getRegion
        rw [hget]
      have h3 : getRegion fsExists openSlide readRegion resizeImage encodePNG
          max_pixels reg' filename x y width height =
          (Except.ok (regionPipeline readRegion resizeImage encodePNG max_pixels
            s x y width height), reg') := by
        unfold getRegion
        rw [h2]
      rw [h1]
      exact h3

/-! ## C10: the read width can be zero for a valid request -/

/-- C10: there are valid inputs (positive width and height) for which the
level-local read width `floor(width / levelDownsample)` is 0, so
`slide.read_region` is invoked with a zero-sized dimension: here a
1x3000 request against level table `[1, 4]` with budget 512 selects
downsample 4 and reads a 0x750 block. -/
theorem read_width_can_be_zero_for_valid_request :
    0 < 1 ∧ 0 < 3000 ∧
    (readCallArgs ⟨[1, 4]⟩ 512 0 0 1 3000).2.2.1 = 0 ∧
    0 < (readCallArgs ⟨[1, 4]⟩ 512 0 0 1 3000).2.2.2 := by
  refine ⟨by norm_num, by norm_num, ?_, ?_⟩ <;>
    norm_num [readCallArgs, readSize, calcRequiredDownsample, bestLevel,
      bestLevelLoop, show Int.toNat 750 = 750 from rfl] <;> decide

end WSIClip
